import Mathlib

/-!
Shallow embedding of the falconnr core (params.cpp, table.cpp) and proofs
about its parameter builder, index wrapper and probe calibration algorithm.

Conventions of the embedding:
* C++ `int` values are modelled as `Int`; the C++ `/` on `int` truncates
  toward zero, which is `Int.tdiv` (overflow of 32-bit arithmetic is not
  modelled: every run considered here stays far below 2^31).
* The external FALCONN engine (an `LSHNearestNeighborTable` handle) is
  modelled as a record of abstract query functions (`EngineFuns`); the one
  piece of engine state the wrapper mutates, the probe count, is an explicit
  field threaded through every operation.
* A C++ `double` precision value is modelled as `Option ℚ`: `none` is the
  IEEE NaN produced by `0.0/0.0`, and any comparison `NaN >= t` is false.
* The two `for` loops of `LshNnTable::tuneNumProbes` are modelled with an
  explicit fuel argument; `none` means the fuel was exhausted before the
  loop finished.
-/

/-- Embeds `falconn::DistanceFunction` as used by params.cpp. -/
inductive DistanceFunction where
  | Unknown
  | NegativeInnerProduct
  | EuclideanSquared
  deriving DecidableEq, Fintype, Inhabited, Repr

/-- Embeds `falconn::LSHFamily` as used by params.cpp. -/
inductive LSHFamily where
  | Unknown
  | Hyperplane
  | CrossPolytope
  deriving DecidableEq, Fintype, Inhabited, Repr

/-- Embeds `falconn::StorageHashTable` as used by params.cpp. -/
inductive StorageHashTable where
  | Unknown
  | FlatHashTable
  | BitPackedFlatHashTable
  | STLHashTable
  | LinearProbingHashTable
  deriving DecidableEq, Fintype, Inhabited, Repr

/-- Embeds the fields of `falconn::LSHConstructionParameters` that params.cpp
reads or writes. -/
structure LSHConstructionParameters where
  dimension : Int
  k : Int
  l : Int
  seed : Int
  lsh_family : LSHFamily
  distance_function : DistanceFunction
  storage_hash_table : StorageHashTable
  num_rotations : Int
  num_setup_threads : Int
  last_cp_dimension : Int
  feature_hashing_dimension : Int
  deriving DecidableEq, Inhabited, Repr

/-- Embeds the builder class `LshParameterSetter` of params.cpp: the stored
point count `_n`, dimension `_d` and parameter structure `_p`. -/
structure LshParameterSetter where
  _n : Int
  _d : Int
  _p : LSHConstructionParameters
  deriving DecidableEq, Inhabited, Repr

namespace LshParameterSetter

/-- Embeds the file-scope template function `get` of params.cpp: lookup in a
string-keyed map, returning a default value when the key is missing.
A `std::map` is modelled as an association list ordered by key, which is
the iteration order of `std::map`. -/
def get {V : Type} (m : List (String × V)) (key : String) (deflt : V) : V :=
  match m.find? (fun kv => kv.1 == key) with
  | some kv => kv.2
  | none => deflt

/-- Embeds the file-scope template function `invert` of params.cpp: first key
of the map whose mapped value equals the given value, or the fallback label. -/
def invert {V : Type} [BEq V] (m : List (String × V)) (value : V) (label : String) : String :=
  match m.find? (fun kv => kv.2 == value) with
  | some kv => kv.1
  | none => label

/-- Embeds the static map `LshParameterSetter::distances`, in the sorted key
order in which `std::map` stores it. -/
def distances : List (String × DistanceFunction) :=
  [("euclidean_squared", DistanceFunction.EuclideanSquared),
   ("negative_inner_product", DistanceFunction.NegativeInnerProduct),
   ("unknown", DistanceFunction.Unknown)]

/-- Embeds the static map `LshParameterSetter::families`, in sorted key order. -/
def families : List (String × LSHFamily) :=
  [("cross_polytope", LSHFamily.CrossPolytope),
   ("hyperplane", LSHFamily.Hyperplane),
   ("unknown", LSHFamily.Unknown)]

/-- Embeds the static map `LshParameterSetter::storageTypes`, in sorted key order. -/
def storageTypes : List (String × StorageHashTable) :=
  [("bit_packed_flat_hash_table", StorageHashTable.BitPackedFlatHashTable),
   ("flat_hash_table", StorageHashTable.FlatHashTable),
   ("linear_probing_hash_table", StorageHashTable.LinearProbingHashTable),
   ("stl_hash_table", StorageHashTable.STLHashTable),
   ("unknown", StorageHashTable.Unknown)]

/-- Embeds `LshParameterSetter::withDefaults`: recomputes `_p` from the
engine routine `get_default_parameters`, which is external to the core and
therefore passed in as an abstract function `defaults`. -/
def withDefaults (defaults : Int → Int → DistanceFunction → Bool → LSHConstructionParameters)
    (s : LshParameterSetter) (distanceLabel : String) : LshParameterSetter :=
  { s with _p := defaults s._n s._d (get distances distanceLabel DistanceFunction.Unknown) true }

/-- Embeds the constructor `LshParameterSetter::LshParameterSetter(int n, int d)`:
stores `n` and `d` and calls `withDefaults()` with its default argument
`"euclidean_squared"`. The constructor contains no validation of `n` or `d`. -/
def create (defaults : Int → Int → DistanceFunction → Bool → LSHConstructionParameters)
    (n d : Int) : LshParameterSetter :=
  withDefaults defaults { _n := n, _d := d, _p := default } "euclidean_squared"

/-- Embeds `LshParameterSetter::params()`: returns the parameter structure by value. -/
def params (s : LshParameterSetter) : LSHConstructionParameters := s._p

/-- Embeds `LshParameterSetter::distance`. -/
def distance (s : LshParameterSetter) (label : String) : LshParameterSetter :=
  { s with _p := { s._p with
      distance_function := get distances label DistanceFunction.Unknown } }

/-- Embeds `LshParameterSetter::family`. -/
def family (s : LshParameterSetter) (label : String) : LshParameterSetter :=
  { s with _p := { s._p with lsh_family := get families label LSHFamily.Unknown } }

/-- Embeds `LshParameterSetter::storage`. -/
def storage (s : LshParameterSetter) (label : String) : LshParameterSetter :=
  { s with _p := { s._p with
      storage_hash_table := get storageTypes label StorageHashTable.Unknown } }

/-- Embeds `LshParameterSetter::numHashFunctions`. -/
def numHashFunctions (s : LshParameterSetter) (funcs : Int) : LshParameterSetter :=
  { s with _p := { s._p with k := funcs } }

/-- Embeds `LshParameterSetter::numHashTables`. -/
def numHashTables (s : LshParameterSetter) (tables : Int) : LshParameterSetter :=
  { s with _p := { s._p with l := tables } }

/-- Embeds `LshParameterSetter::rotations`. -/
def rotations (s : LshParameterSetter) (numRotations : Int) : LshParameterSetter :=
  { s with _p := { s._p with num_rotations := numRotations } }

/-- Embeds the named R list built by `LshParameterSetter::asList`. -/
structure RList where
  points : Int
  dimension : Int
  hashFunctions : Int
  hashTables : Int
  seed : Int
  lshFamily : String
  distance : String
  storage : String
  rotations : Int
  threads : Int
  last_cp_dimension : Int
  feature_hashing_dimension : Int
  deriving DecidableEq, Repr

/-- Embeds `LshParameterSetter::asList`: field values of the builder, with the
three enumeration fields rendered through `invert` (label `"unknown"` when no
entry of the map carries the current value). -/
def asList (s : LshParameterSetter) : RList :=
  { points := s._n
    dimension := s._d
    hashFunctions := s._p.k
    hashTables := s._p.l
    seed := s._p.seed
    lshFamily := invert families s._p.lsh_family "unknown"
    distance := invert distances s._p.distance_function "unknown"
    storage := invert storageTypes s._p.storage_hash_table "unknown"
    rotations := s._p.num_rotations
    threads := s._p.num_setup_threads
    last_cp_dimension := s._p.last_cp_dimension
    feature_hashing_dimension := s._p.feature_hashing_dimension }

end LshParameterSetter

/-- Models the query surface of the external FALCONN engine handle
(`LSHNearestNeighborTable`, spec section 6): each operation is an abstract
function of the probe count currently set on the engine and of the query,
where a query point is identified by an opaque id. Point indices returned by
the engine are its internal 0-based keys. -/
structure EngineFuns where
  nearestOf : Int → Nat → Int
  kNearestOf : Int → Nat → Int → List Int
  nearOf : Int → Nat → ℚ → List Int
  candidatesOf : Int → Nat → List Int
  uniqueCandidatesOf : Int → Nat → List Int

/-- Embeds the state of an `LshNnTable` of table.cpp that its query and
calibration methods touch: the engine behaviour and the two runtime knobs
held by the engine (`num_probes` via `set_num_probes`, `max_num_candidates`
via `set_max_num_candidates`). -/
structure LshNnTable where
  engine : EngineFuns
  num_probes : Int
  max_num_candidates : Int

/-- Embeds the calibration errors signalled by `stop(...)` in table.cpp. -/
inductive LshError where
  | dimensionMismatch
  | maxIterationsExceeded
  deriving DecidableEq, Repr

namespace LshNnTable

/-- Embeds `LshNnTable::find_nearest_neighbor`: engine result plus one
("1-indexed output"). -/
def find_nearest_neighbor (t : LshNnTable) (q : Nat) : Int :=
  t.engine.nearestOf t.num_probes q + 1

/-- Embeds `LshNnTable::find_k_nearest_neighbors`: engine result with every
index shifted by one by the `std::transform` call. No validation of `k` is
performed before the engine call. -/
def find_k_nearest_neighbors (t : LshNnTable) (q : Nat) (k : Int) : List Int :=
  (t.engine.kNearestOf t.num_probes q k).map (fun index => index + 1)

/-- Embeds `LshNnTable::find_near_neighbors`: engine result with every index
shifted by one by the `std::transform` call. -/
def find_near_neighbors (t : LshNnTable) (q : Nat) (radius : ℚ) : List Int :=
  (t.engine.nearOf t.num_probes q radius).map (fun index => index + 1)

/-- Embeds `LshNnTable::get_candidates`: the engine candidate list is copied
into the result without any index shift. -/
def get_candidates (t : LshNnTable) (q : Nat) : List Int :=
  t.engine.candidatesOf t.num_probes q

/-- Embeds `LshNnTable::get_unique_candidates`: the engine list is copied
into the result without any index shift. -/
def get_unique_candidates (t : LshNnTable) (q : Nat) : List Int :=
  t.engine.uniqueCandidatesOf t.num_probes q

/-- Embeds `LshNnTable::setNumProbes`: forwards its argument to the engine
call `set_num_probes` unconditionally and returns the table for chaining. -/
def setNumProbes (t : LshNnTable) (num_probes : Int) : LshNnTable :=
  { t with num_probes := num_probes }

/-- Embeds `LshNnTable::getNumProbes`. -/
def getNumProbes (t : LshNnTable) : Int :=
  t.num_probes

/-- Embeds `LshNnTable::setMaxNumCandidates`. -/
def setMaxNumCandidates (t : LshNnTable) (num_candidates : Int) : LshNnTable :=
  { t with max_num_candidates := num_candidates }

/-- Embeds `LshNnTable::getMaxNumCandidates`. -/
def getMaxNumCandidates (t : LshNnTable) : Int :=
  t.max_num_candidates

/-- Embeds the matching loop of `LshNnTable::computeProbePrecision`: for each
query column in order, one match is counted when the answer entry at the
running `answer_index` appears anywhere in the candidate list of that column
(the inner `for` over candidates with `break`). -/
def countMatches (cand : Nat → List Int) (answers : Nat → Int) :
    List Nat → Nat → Nat
  | [], _ => 0
  | q :: rest, answer_index =>
    (if (cand q).contains (answers answer_index) then 1 else 0) +
      countMatches cand answers rest (answer_index + 1)

/-- Gives the `double` value returned by `LshNnTable::computeProbePrecision`
for probe count `num_probes`, kept as the unevaluated fraction
`(num_matches, num_cols)`. The double is the quotient of the two components;
with zero query columns it is the IEEE NaN `0.0/0.0`. -/
def probePrecision (t : LshNnTable) (queries : List Nat) (answers : Nat → Int)
    (num_probes : Int) : Nat × Nat :=
  (countMatches (fun q => t.engine.candidatesOf num_probes q) answers queries 0,
    queries.length)

/-- Denotes a `(num_matches, num_cols)` fraction as an exact value: `none` is
the NaN produced by a zero denominator. -/
def precVal (precision : Nat × Nat) : Option ℚ :=
  if precision.2 = 0 then none else some ((precision.1 : ℚ) / (precision.2 : ℚ))

/-- Embeds `LshNnTable::computeProbePrecision` with its state effect: the
method first calls `set_num_probes(num_probes)` on the engine and then
retrieves the candidate lists at that probe count. -/
def computeProbePrecision (t : LshNnTable) (queries : List Nat) (answers : Nat → Int)
    (num_probes : Int) : LshNnTable × (Nat × Nat) :=
  ({ t with num_probes := num_probes }, probePrecision t queries answers num_probes)

/-- Gives the value of the C++ comparison `precision >= target_precision` on
doubles: false whenever `precision` is the NaN of an empty validation set,
and otherwise the exact comparison `target <= num_matches / num_cols`,
decided by integer cross-multiplication (`precGe_true_iff` below relates it
to the rational quotient). -/
def precGe (precision : Nat × Nat) (target : ℚ) : Bool :=
  if precision.2 = 0 then false
  else decide (target.num * (precision.2 : Int) ≤ (precision.1 : Int) * (target.den : Int))

end LshNnTable

/-- Embeds the first loop of `LshNnTable::tuneNumProbes`
(`for ( ; iter != 0; --iter )`): evaluate the precision at the current
`num_probes`, exit on success keeping `iter`, otherwise double `num_probes`
and decrement `iter`. Returns the table state, `num_probes` and `iter` at
loop exit; `none` when the explicit fuel ran out first. -/
def tuneExpLoop (queries : List Nat) (answers : Nat → Int) (target : ℚ) :
    Nat → Int → Int → LshNnTable → Option (LshNnTable × Int × Int)
  | 0, _, _, _ => none
  | fuel + 1, num_probes, iter, t =>
    if iter = 0 then some (t, num_probes, iter)
    else
      if LshNnTable.precGe (LshNnTable.computeProbePrecision t queries answers num_probes).2
          target then
        some ((LshNnTable.computeProbePrecision t queries answers num_probes).1,
          num_probes, iter)
      else
        tuneExpLoop queries answers target fuel (num_probes * 2) (iter - 1)
          (LshNnTable.computeProbePrecision t queries answers num_probes).1

/-- Embeds the second loop of `LshNnTable::tuneNumProbes`
(`for ( int mid, lo = num_probes/2; num_probes - lo > 1; )`). The loop body
computes `mid = (num_probes + lo) / 2` but evaluates the precision at
`num_probes`, not at `mid`, exactly as the source does; on success
`num_probes` becomes `mid`, otherwise `lo` becomes `mid`. Returns the table
state, `num_probes` and `lo` at loop exit; `none` when fuel ran out. -/
def tuneBinLoop (queries : List Nat) (answers : Nat → Int) (target : ℚ) :
    Nat → Int → Int → LshNnTable → Option (LshNnTable × Int × Int)
  | 0, num_probes, lo, t =>
    if 1 < num_probes - lo then none else some (t, num_probes, lo)
  | fuel + 1, num_probes, lo, t =>
    if 1 < num_probes - lo then
      if LshNnTable.precGe (LshNnTable.computeProbePrecision t queries answers num_probes).2
          target then
        tuneBinLoop queries answers target fuel (Int.tdiv (num_probes + lo) 2) lo
          (LshNnTable.computeProbePrecision t queries answers num_probes).1
      else
        tuneBinLoop queries answers target fuel num_probes (Int.tdiv (num_probes + lo) 2)
          (LshNnTable.computeProbePrecision t queries answers num_probes).1
    else some (t, num_probes, lo)

namespace LshNnTable

/-- Embeds `LshNnTable::tuneNumProbes`: exponential search from
`init_num_probes` under the iteration budget `max_iterations` (a negative
budget never reaches the `iter == 0` test and so acts as the unbounded
sentinel), the `stop("maximum iterations exceeded ...")` call when the
budget is exhausted, the halving bracket `lo = num_probes / 2` followed by
the second loop, and the final `setNumProbes(original_num_probes)` executed
only on the normal return path. -/
def tuneNumProbes (t : LshNnTable) (queries : List Nat) (answers : Nat → Int)
    (target_precision : ℚ) (init_num_probes max_iterations : Int) (fuel : Nat) :
    Option (LshNnTable × Except LshError Int) :=
  let original_num_probes := getNumProbes t
  match tuneExpLoop queries answers target_precision fuel init_num_probes max_iterations t with
  | none => none
  | some (t1, num_probes, iter) =>
    if iter = 0 then some (t1, Except.error LshError.maxIterationsExceeded)
    else
      match tuneBinLoop queries answers target_precision fuel num_probes
          (Int.tdiv num_probes 2) t1 with
      | none => none
      | some (t2, num_probes2, _) =>
        some (setNumProbes t2 original_num_probes, Except.ok num_probes2)

end LshNnTable

/-- Engine whose candidate lists are always empty: no validation query can
ever be matched. -/
def engEmpty : EngineFuns :=
  { nearestOf := fun _ _ => 0
    kNearestOf := fun _ _ _ => []
    nearOf := fun _ _ _ => []
    candidatesOf := fun _ _ => []
    uniqueCandidatesOf := fun _ _ => [] }

/-- Engine that starts returning the answer key 0 among the candidates once
at least 7 probes are used. -/
def engThreshold7 : EngineFuns :=
  { engEmpty with candidatesOf := fun p _ => if 7 ≤ p then [0] else [] }

/-- Engine whose candidate retrieval returns the 0-based keys 0 and 2. -/
def engPair : EngineFuns :=
  { engEmpty with
    candidatesOf := fun _ _ => [0, 2]
    uniqueCandidatesOf := fun _ _ => [0, 2]
    kNearestOf := fun _ _ _ => [0, 2] }

/-- Table with ten probes set and an engine that never matches anything. -/
def tEmpty : LshNnTable :=
  { engine := engEmpty, num_probes := 10, max_num_candidates := -1 }

/-- Table over `engThreshold7` with five probes set initially. -/
def tThreshold7 : LshNnTable :=
  { engine := engThreshold7, num_probes := 5, max_num_candidates := -1 }

/-- Table over `engPair`. -/
def tPair : LshNnTable :=
  { engine := engPair, num_probes := 1, max_num_candidates := -1 }

/-- Concrete stand-in for the engine routine `get_default_parameters`,
recording its arguments in the returned structure. -/
def defaultsProbe : Int → Int → DistanceFunction → Bool → LSHConstructionParameters :=
  fun n d df auto =>
    { dimension := d
      k := 1
      l := 1
      seed := 4057218
      lsh_family := LSHFamily.CrossPolytope
      distance_function := df
      storage_hash_table := StorageHashTable.BitPackedFlatHashTable
      num_rotations := 1
      num_setup_threads := if auto then n else 0
      last_cp_dimension := 0
      feature_hashing_dimension := 0 }

/-- Concrete builder used to instantiate universally quantified theorems. -/
def sBase : LshParameterSetter :=
  LshParameterSetter.create defaultsProbe 4 2

/-! Helper lemmas shared by the claim theorems. -/

/-- Unfolds the state component of `computeProbePrecision`. -/
@[simp] theorem computeProbePrecision_fst (t : LshNnTable) (queries : List Nat)
    (answers : Nat → Int) (num_probes : Int) :
    (LshNnTable.computeProbePrecision t queries answers num_probes).1 =
      { t with num_probes := num_probes } := rfl

/-- Unfolds the value component of `computeProbePrecision`. -/
@[simp] theorem computeProbePrecision_snd (t : LshNnTable) (queries : List Nat)
    (answers : Nat → Int) (num_probes : Int) :
    (LshNnTable.computeProbePrecision t queries answers num_probes).2 =
      LshNnTable.probePrecision t queries answers num_probes := rfl

/-- Shows the precision value ignores the probe-count field of the state:
candidate retrieval is a function of the probe count passed explicitly. -/
@[simp] theorem probePrecision_set_probes (t : LshNnTable) (x : Int) (queries : List Nat)
    (answers : Nat → Int) (num_probes : Int) :
    LshNnTable.probePrecision { t with num_probes := x } queries answers num_probes =
      LshNnTable.probePrecision t queries answers num_probes := rfl

/-- Relates the cross-multiplied comparison of `precGe` to the comparison of
the exact quotient it represents, for a nonzero denominator. -/
theorem precGe_true_iff (num_matches num_cols : Nat) (target : ℚ) (h : num_cols ≠ 0) :
    LshNnTable.precGe (num_matches, num_cols) target = true ↔
      target ≤ (num_matches : ℚ) / (num_cols : ℚ) := by
  have hc : (0 : ℚ) < (num_cols : ℚ) := by exact_mod_cast Nat.pos_of_ne_zero h
  have hd : (0 : ℚ) < ((target.den : ℚ)) := by exact_mod_cast target.pos
  rw [LshNnTable.precGe]
  simp only [h, if_false, decide_eq_true_eq]
  conv_rhs => rw [le_div_iff₀ hc, ← Rat.num_div_den target, div_mul_eq_mul_div,
    div_le_iff₀ hd]
  constructor
  · intro h'
    exact_mod_cast h'
  · intro h'
    exact_mod_cast h'

/-- Characterizes the exponential phase when every one of the first `n + 1`
evaluated probe counts misses the target: the loop runs its budget down to
zero, leaving the engine at the last evaluated probe count `np * 2 ^ n` and
the loop variable at the next doubled value `np * 2 ^ (n + 1)`. -/
theorem tuneExpLoop_all_fail (queries : List Nat) (answers : Nat → Int) (target : ℚ) :
    ∀ (n fuel : Nat) (np : Int) (t : LshNnTable), n + 1 < fuel →
      (∀ j < n + 1,
        LshNnTable.precGe (LshNnTable.probePrecision t queries answers (np * 2 ^ j)) target
          = false) →
      tuneExpLoop queries answers target fuel np ((n : Int) + 1) t =
        some ({ t with num_probes := np * 2 ^ n }, np * 2 ^ (n + 1), 0) := by
  intro n
  induction n with
  | zero =>
    intro fuel np t hf hfail
    match fuel, hf with
    | f + 2, _ =>
      have h0 := hfail 0 (by omega)
      simp only [pow_zero, mul_one] at h0
      simp only [tuneExpLoop, computeProbePrecision_fst, computeProbePrecision_snd,
        Nat.cast_zero, zero_add, h0]
      norm_num
  | succ n ih =>
    intro fuel np t hf hfail
    match fuel, hf with
    | f + 1, _ =>
      have h0 := hfail 0 (by omega)
      simp only [pow_zero, mul_one] at h0
      have hshift : ∀ j < n + 1,
          LshNnTable.precGe
            (LshNnTable.probePrecision { t with num_probes := np } queries answers
              (np * 2 * 2 ^ j)) target = false := by
        intro j hj
        have := hfail (j + 1) (by omega)
        rw [probePrecision_set_probes]
        calc LshNnTable.precGe
              (LshNnTable.probePrecision t queries answers (np * 2 * 2 ^ j)) target
            = LshNnTable.precGe
              (LshNnTable.probePrecision t queries answers (np * 2 ^ (j + 1))) target := by
              ring_nf
          _ = false := this
      have hrec := ih f (np * 2) { t with num_probes := np } (by omega) hshift
      simp only [tuneExpLoop, computeProbePrecision_fst, computeProbePrecision_snd, h0]
      have hiter : ¬(((n : Int) + 1) + 1 = 0) := by omega
      rw [if_neg (by push_cast; omega)]
      rw [if_neg (by simp [h0])]
      have hcast : (((n : Nat) + 1 : Nat) : Int) + 1 - 1 = ((n : Nat) : Int) + 1 := by
        push_cast
        ring
      rw [hcast, hrec]
      have e1 : np * 2 * 2 ^ n = np * 2 ^ (n + 1) := by ring
      have e2 : np * 2 * 2 ^ (n + 1) = np * 2 ^ (n + 1 + 1) := by ring
      rw [e1, e2]

/-- Characterizes the exponential phase when `np * 2 ^ j` is the first
evaluated probe count meeting the target and the budget variable never hits
zero on the way: the loop breaks there, leaving the engine at that probe
count and the budget decremented `j` times. -/
theorem tuneExpLoop_first_pass (queries : List Nat) (answers : Nat → Int) (target : ℚ) :
    ∀ (j fuel : Nat) (np iter : Int) (t : LshNnTable), j < fuel →
      (∀ i < j,
        LshNnTable.precGe (LshNnTable.probePrecision t queries answers (np * 2 ^ i)) target
          = false) →
      LshNnTable.precGe (LshNnTable.probePrecision t queries answers (np * 2 ^ j)) target
        = true →
      (∀ i : Nat, i ≤ j → iter - (i : Int) ≠ 0) →
      tuneExpLoop queries answers target fuel np iter t =
        some ({ t with num_probes := np * 2 ^ j }, np * 2 ^ j, iter - (j : Int)) := by
  intro j
  induction j with
  | zero =>
    intro fuel np iter t hf hfail hpass hiter
    match fuel, hf with
    | f + 1, _ =>
      have hi0 : ¬(iter = 0) := by have := hiter 0 (by omega); omega
      simp only [pow_zero, mul_one] at hpass
      simp only [tuneExpLoop, computeProbePrecision_fst, computeProbePrecision_snd]
      rw [if_neg hi0, if_pos (by simp [hpass])]
      simp
  | succ j ih =>
    intro fuel np iter t hf hfail hpass hiter
    match fuel, hf with
    | f + 1, _ =>
      have hi0 : ¬(iter = 0) := by have := hiter 0 (by omega); omega
      have h0 := hfail 0 (by omega)
      simp only [pow_zero, mul_one] at h0
      have hshift : ∀ i < j,
          LshNnTable.precGe
            (LshNnTable.probePrecision { t with num_probes := np } queries answers
              (np * 2 * 2 ^ i)) target = false := by
        intro i hi
        have := hfail (i + 1) (by omega)
        rw [probePrecision_set_probes]
        calc LshNnTable.precGe
              (LshNnTable.probePrecision t queries answers (np * 2 * 2 ^ i)) target
            = LshNnTable.precGe
              (LshNnTable.probePrecision t queries answers (np * 2 ^ (i + 1))) target := by
              ring_nf
          _ = false := this
      have hpass2 : LshNnTable.precGe
          (LshNnTable.probePrecision { t with num_probes := np } queries answers
            (np * 2 * 2 ^ j)) target = true := by
        rw [probePrecision_set_probes]
        calc LshNnTable.precGe
              (LshNnTable.probePrecision t queries answers (np * 2 * 2 ^ j)) target
            = LshNnTable.precGe
              (LshNnTable.probePrecision t queries answers (np * 2 ^ (j + 1))) target := by
              ring_nf
          _ = true := hpass
      have hiter2 : ∀ i : Nat, i ≤ j → (iter - 1) - (i : Int) ≠ 0 := by
        intro i hi
        have := hiter (i + 1) (by omega)
        push_cast at this ⊢
        omega
      have hrec := ih f (np * 2) (iter - 1) { t with num_probes := np } (by omega)
        hshift hpass2 hiter2
      simp only [tuneExpLoop, computeProbePrecision_fst, computeProbePrecision_snd]
      rw [if_neg hi0, if_neg (by simp [h0]), hrec]
      have e1 : np * 2 * 2 ^ j = np * 2 ^ (j + 1) := by ring
      have e2 : iter - 1 - (j : Int) = iter - ((j : Nat) + 1 : Nat) := by
        push_cast
        ring
      rw [e1, e2]

/-- Shows a negative budget value can never reach zero: whenever the
exponential phase returns at all under a negative `iter`, the returned
budget variable is still negative. -/
theorem tuneExpLoop_neg_iter (queries : List Nat) (answers : Nat → Int) (target : ℚ) :
    ∀ (fuel : Nat) (np iter : Int) (t : LshNnTable) (res : LshNnTable × Int × Int),
      iter < 0 →
      tuneExpLoop queries answers target fuel np iter t = some res → res.2.2 < 0 := by
  intro fuel
  induction fuel with
  | zero =>
    intro np iter t res hneg h
    simp [tuneExpLoop] at h
  | succ f ih =>
    intro np iter t res hneg h
    simp only [tuneExpLoop, computeProbePrecision_fst, computeProbePrecision_snd] at h
    rw [if_neg (by omega)] at h
    by_cases hp : LshNnTable.precGe (LshNnTable.probePrecision t queries answers np) target
      = true
    · rw [if_pos (by simp [hp])] at h
      obtain rfl := Option.some.inj h
      simpa using hneg
    · rw [if_neg hp] at h
      exact ih (np * 2) (iter - 1) _ res (by omega) h

/-- Shows the calibration call fails with the maximum-iterations error, with
the engine left at the last evaluated probe count, whenever all
`max_iterations` doubled probe counts miss the target. -/
theorem tuneNumProbes_error_of_all_fail (t : LshNnTable) (queries : List Nat)
    (answers : Nat → Int) (target : ℚ) (init m : Int) (fuel : Nat)
    (hm : 1 ≤ m) (hf : m.toNat < fuel)
    (hfail : ∀ j < m.toNat,
      LshNnTable.precGe (LshNnTable.probePrecision t queries answers (init * 2 ^ j)) target
        = false) :
    LshNnTable.tuneNumProbes t queries answers target init m fuel =
      some ({ t with num_probes := init * 2 ^ (m.toNat - 1) },
        Except.error LshError.maxIterationsExceeded) := by
  obtain ⟨n, hn⟩ : ∃ n : Nat, m.toNat = n + 1 := ⟨m.toNat - 1, by omega⟩
  have hm' : m = ((n : Nat) : Int) + 1 := by omega
  have hexp := tuneExpLoop_all_fail queries answers target n fuel init t (by omega)
    (by rw [← hn] at *; exact hfail)
  simp only [LshNnTable.tuneNumProbes, LshNnTable.getNumProbes]
  rw [hm', hexp]
  have htn : (((n : Nat) : Int) + 1).toNat - 1 = n := by omega
  simp [htn]

/-- Shows the refinement loop terminates with an interval of width exactly
one, for every bracket with a non-negative lower end strictly below the
upper end, whenever the fuel is at least the initial width. -/
theorem tuneBinLoop_exits_width_one (queries : List Nat) (answers : Nat → Int) (target : ℚ) :
    ∀ (fuel : Nat) (np lo : Int) (t : LshNnTable), 0 ≤ lo → lo < np →
      (np - lo).toNat ≤ fuel →
      ∃ t2 np2 lo2, tuneBinLoop queries answers target fuel np lo t = some (t2, np2, lo2) ∧
        np2 - lo2 = 1 := by
  intro fuel
  induction fuel with
  | zero =>
    intro np lo t h0 hlt hf
    exfalso
    omega
  | succ f ih =>
    intro np lo t h0 hlt hf
    by_cases hw : 1 < np - lo
    · have hmid : Int.tdiv (np + lo) 2 = (np + lo) / 2 :=
        Int.tdiv_eq_ediv (by omega) (by omega)
      simp only [tuneBinLoop, computeProbePrecision_fst, computeProbePrecision_snd]
      rw [if_pos hw]
      by_cases hp : LshNnTable.precGe (LshNnTable.probePrecision t queries answers np) target
        = true
      · rw [if_pos hp]
        exact ih (Int.tdiv (np + lo) 2) lo { t with num_probes := np } h0
          (by rw [hmid]; omega) (by rw [hmid]; omega)
      · rw [if_neg hp]
        exact ih np (Int.tdiv (np + lo) 2) { t with num_probes := np }
          (by rw [hmid]; omega) (by rw [hmid]; omega) (by rw [hmid]; omega)
    · simp only [tuneBinLoop, computeProbePrecision_fst, computeProbePrecision_snd]
      rw [if_neg hw]
      exact ⟨t, np, lo, rfl, by omega⟩

/-! Claim theorems. -/

/-- C7: with a finite iteration budget `m >= 1` (and enough fuel to model the
run), `tuneNumProbes` fails with the maximum-iterations error exactly when
none of the `m` probe counts evaluated by the exponential phase — the
initial count doubled on each failure, `init * 2 ^ j` for `j < m` — meets
the target; and with the negative unbounded sentinel budget that error is
never produced. -/
theorem C7_exponential_phase_budget (t : LshNnTable) (queries : List Nat)
    (answers : Nat → Int) (target : ℚ) (init m : Int) (fuel : Nat) :
    (1 ≤ m → m.toNat < fuel →
      ((∃ t1, LshNnTable.tuneNumProbes t queries answers target init m fuel =
          some (t1, Except.error LshError.maxIterationsExceeded)) ↔
        ∀ j < m.toNat,
          LshNnTable.precGe (LshNnTable.probePrecision t queries answers (init * 2 ^ j))
            target = false))
    ∧ (m < 0 → ∀ t1 r,
        LshNnTable.tuneNumProbes t queries answers target init m fuel = some (t1, r) →
        r ≠ Except.error LshError.maxIterationsExceeded) := by
  constructor
  · intro hm hf
    constructor
    · intro herr
      by_contra hnot
      push_neg at hnot
      obtain ⟨j, hj, hjp⟩ := hnot
      have hex : ∃ i : Nat, LshNnTable.precGe
          (LshNnTable.probePrecision t queries answers (init * 2 ^ i)) target = true := by
        refine ⟨j, ?_⟩
        revert hjp
        cases LshNnTable.precGe (LshNnTable.probePrecision t queries answers (init * 2 ^ j))
          target <;> simp
      classical
      set j0 := Nat.find hex with hj0def
      have hj0pass := Nat.find_spec hex
      have hj0min : ∀ i < j0, LshNnTable.precGe
          (LshNnTable.probePrecision t queries answers (init * 2 ^ i)) target = false := by
        intro i hi
        have := Nat.find_min hex hi
        revert this
        cases LshNnTable.precGe (LshNnTable.probePrecision t queries answers (init * 2 ^ i))
          target <;> simp
      have hj0lt : j0 < m.toNat := by
        have : j0 ≤ j := by
          apply Nat.find_min'
          exact (by
            revert hjp
            cases LshNnTable.precGe
              (LshNnTable.probePrecision t queries answers (init * 2 ^ j)) target <;> simp)
        omega
      have hiter : ∀ i : Nat, i ≤ j0 → m - (i : Int) ≠ 0 := by
        intro i hi
        omega
      have hexp := tuneExpLoop_first_pass queries answers target j0 fuel init m t
        (by omega) hj0min hj0pass hiter
      obtain ⟨t1, ht1⟩ := herr
      simp only [LshNnTable.tuneNumProbes, LshNnTable.getNumProbes, hexp] at ht1
      rw [if_neg (by omega)] at ht1
      cases hbin : tuneBinLoop queries answers target fuel (init * 2 ^ j0)
          (Int.tdiv (init * 2 ^ j0) 2) { t with num_probes := init * 2 ^ j0 } with
      | none =>
        rw [hbin] at ht1
        exact Option.noConfusion ht1
      | some r2 =>
        obtain ⟨t2, np2, lo2⟩ := r2
        rw [hbin] at ht1
        simp at ht1
    · intro hfail
      exact ⟨_, tuneNumProbes_error_of_all_fail t queries answers target init m fuel
        hm hf hfail⟩
  · intro hneg t1 r htune
    cases hexp : tuneExpLoop queries answers target fuel init m t with
    | none =>
      simp only [LshNnTable.tuneNumProbes, LshNnTable.getNumProbes, hexp] at htune
      exact Option.noConfusion htune
    | some res =>
      obtain ⟨te, npe, itere⟩ := res
      have hlt := tuneExpLoop_neg_iter queries answers target fuel init m t
        (te, npe, itere) hneg hexp
      simp only at hlt
      simp only [LshNnTable.tuneNumProbes, LshNnTable.getNumProbes, hexp] at htune
      rw [if_neg (by omega)] at htune
      cases hbin : tuneBinLoop queries answers target fuel npe (Int.tdiv npe 2) te with
      | none =>
        rw [hbin] at htune
        exact Option.noConfusion htune
      | some r2 =>
        obtain ⟨t2, np2, lo2⟩ := r2
        rw [hbin] at htune
        obtain ⟨he1, he2⟩ := Prod.mk.injEq .. ▸ Option.some.inj htune
        intro hcon
        rw [hcon] at he2
        exact Except.noConfusion he2

/-- C7 witness: a concrete two-iteration budget on a table whose engine never
matches any answer ends in the maximum-iterations error. -/
theorem C7_exponential_phase_budget_witness :
    ∃ t1, LshNnTable.tuneNumProbes tEmpty [0] (fun _ => 0) 1 1 2 5 =
      some (t1, Except.error LshError.maxIterationsExceeded) :=
  ((C7_exponential_phase_budget tEmpty [0] (fun _ => 0) 1 1 2 5).1
    (by decide) (by decide)).mpr (by decide)

/-- C9: the binary refinement loop of `tuneNumProbes` terminates on the
bracket `lo = num_probes / 2` produced by the exponential phase for any
positive `num_probes`: both branches of one refinement step strictly shrink
the interval while keeping its width at least one, and the loop exits with
an interval of width exactly one, within fuel equal to the initial width. -/
theorem C9_binary_refinement_terminates (queries : List Nat) (answers : Nat → Int)
    (target : ℚ) (t : LshNnTable) (np : Int) (hnp : 1 ≤ np) :
    (∀ np1 lo1 : Int, 0 ≤ lo1 → 1 < np1 - lo1 →
      (np1 - Int.tdiv (np1 + lo1) 2 < np1 - lo1 ∧ 1 ≤ np1 - Int.tdiv (np1 + lo1) 2 ∧
        Int.tdiv (np1 + lo1) 2 - lo1 < np1 - lo1 ∧ 1 ≤ Int.tdiv (np1 + lo1) 2 - lo1))
    ∧ ∀ fuel : Nat, (np - Int.tdiv np 2).toNat ≤ fuel →
        ∃ t2 np2 lo2,
          tuneBinLoop queries answers target fuel np (Int.tdiv np 2) t =
            some (t2, np2, lo2) ∧ np2 - lo2 = 1 := by
  constructor
  · intro np1 lo1 h0 hw
    have hmid : Int.tdiv (np1 + lo1) 2 = (np1 + lo1) / 2 :=
      Int.tdiv_eq_ediv (by omega) (by omega)
    rw [hmid]
    omega
  · intro fuel hfuel
    have hlo : Int.tdiv np 2 = np / 2 := Int.tdiv_eq_ediv (by omega) (by omega)
    exact tuneBinLoop_exits_width_one queries answers target fuel np (Int.tdiv np 2) t
      (by rw [hlo]; omega) (by rw [hlo]; omega) hfuel

/-- C9 witness: the loop on the bracket produced from `num_probes = 8`
terminates with a width-one interval. -/
theorem C9_binary_refinement_terminates_witness :
    ∃ t2 np2 lo2,
      tuneBinLoop [0] (fun _ => 0) 1 4 8 (Int.tdiv 8 2) tEmpty = some (t2, np2, lo2) ∧
        np2 - lo2 = 1 :=
  (C9_binary_refinement_terminates [0] (fun _ => 0) 1 tEmpty 8 (by decide)).2 4 (by decide)

/-- C4 (amended): a validation set with zero queries makes every precision
evaluation the `0/0` NaN fraction, whose comparison with any target is
false, so a calibration run with any finite budget `m >= 1` fails with the
maximum-iterations error — there is no dedicated empty-validation-set
rejection in the code. -/
theorem C4_zero_queries_reach_budget_error (t : LshNnTable) (answers : Nat → Int)
    (target : ℚ) (init m : Int) (fuel : Nat) (hm : 1 ≤ m) (hf : m.toNat < fuel) :
    LshNnTable.probePrecision t [] answers init = (0, 0)
    ∧ ∃ t1, LshNnTable.tuneNumProbes t [] answers target init m fuel =
        some (t1, Except.error LshError.maxIterationsExceeded) := by
  refine ⟨rfl, ⟨_, tuneNumProbes_error_of_all_fail t [] answers target init m fuel
    hm hf ?_⟩⟩
  intro j hj
  rfl

/-- C4 witness: the empty-validation run with budget 3 ends in the
maximum-iterations error. -/
theorem C4_zero_queries_reach_budget_error_witness :
    LshNnTable.probePrecision tEmpty [] (fun _ => 0) 1 = (0, 0)
    ∧ ∃ t1, LshNnTable.tuneNumProbes tEmpty [] (fun _ => 0) 1 1 3 10 =
        some (t1, Except.error LshError.maxIterationsExceeded) :=
  C4_zero_queries_reach_budget_error tEmpty (fun _ => 0) 1 1 3 10 (by decide) (by decide)

/-- C4 counterexample: with zero validation queries the call does not fail
with any empty-validation-set rejection; it runs its full budget on NaN
precisions (`precVal` of the `0/0` fraction is NaN) and reports the
maximum-iterations error. -/
theorem C4_error_kind_is_budget_not_empty_set :
    (LshNnTable.tuneNumProbes tEmpty [] (fun _ => 0) 1 1 3 10).map Prod.snd =
      some (Except.error LshError.maxIterationsExceeded)
    ∧ LshNnTable.precVal (LshNnTable.probePrecision tEmpty [] (fun _ => 0) 1) = none :=
  ⟨rfl, rfl⟩

/-- C3: evaluation of `tuneNumProbes` at a failing run shows the probe count
is not restored on the error path. The table starts with ten probes; the
run with budget 1 evaluates at one probe, fails, and the
`stop("maximum iterations exceeded ...")` path is taken before
`setNumProbes(original_num_probes)` runs, leaving the engine at one probe
instead of the original ten. -/
theorem C3_probe_count_not_restored_on_error :
    LshNnTable.tuneNumProbes tEmpty [0] (fun _ => 0) 1 1 1 5 =
      some ({ tEmpty with num_probes := 1 }, Except.error LshError.maxIterationsExceeded)
    ∧ tEmpty.num_probes = 10 :=
  ⟨rfl, rfl⟩

/-- C1: evaluation of the refinement phase at a concrete run shows it does
not use the midpoint as the oracle argument. The engine matches the answer
exactly when at least 7 probes are used, so the exponential phase brackets
with `lo = 4`, `num_probes = 8` and the smallest passing count is 7; the
code returns 6, a count whose own evaluated precision misses the target,
because each step evaluates the oracle at `num_probes` instead of at
`mid`. -/
theorem C1_refinement_oracle_not_at_midpoint :
    (LshNnTable.tuneNumProbes tThreshold7 [0] (fun _ => 0) 1 1 (-1) 30).map Prod.snd =
      some (Except.ok 6)
    ∧ LshNnTable.precGe (LshNnTable.probePrecision tThreshold7 [0] (fun _ => 0) 6) 1 = false
    ∧ LshNnTable.precGe (LshNnTable.probePrecision tThreshold7 [0] (fun _ => 0) 7) 1 = true :=
  ⟨rfl, by decide, by decide⟩

/-- C2 (amended): the three ranked query operations translate every engine
index to the caller by adding one, while the two raw candidate operations
return the engine's 0-based indices unchanged. -/
theorem C2_index_translation_at_boundary (t : LshNnTable) (q : Nat) (k : Int)
    (radius : ℚ) (j : Nat) :
    LshNnTable.find_nearest_neighbor t q = t.engine.nearestOf t.num_probes q + 1
    ∧ (LshNnTable.find_k_nearest_neighbors t q k)[j]? =
        ((t.engine.kNearestOf t.num_probes q k)[j]?).map (fun index => index + 1)
    ∧ (LshNnTable.find_near_neighbors t q radius)[j]? =
        ((t.engine.nearOf t.num_probes q radius)[j]?).map (fun index => index + 1)
    ∧ LshNnTable.get_candidates t q = t.engine.candidatesOf t.num_probes q
    ∧ LshNnTable.get_unique_candidates t q = t.engine.uniqueCandidatesOf t.num_probes q := by
  refine ⟨rfl, ?_, ?_, rfl, rfl⟩
  · rw [LshNnTable.find_k_nearest_neighbors, List.getElem?_map]
  · rw [LshNnTable.find_near_neighbors, List.getElem?_map]

/-- C2 counterexample: a raw candidate retrieval whose engine list is
`[0, 2]` is returned as `[0, 2]`, not as the 1-based `[1, 3]` the claim
requires for every caller-facing operation. -/
theorem C2_candidates_not_one_based :
    LshNnTable.get_candidates tPair 3 ≠
      (tPair.engine.candidatesOf tPair.num_probes 3).map (fun index => index + 1) := by
  decide

/-- C5 (amended): the builder constructor validates nothing: for every point
count and dimension, including non-positive ones, it succeeds and fills the
parameter structure from the engine defaults for the squared-Euclidean
metric. -/
theorem C5_constructor_performs_no_validation
    (defaults : Int → Int → DistanceFunction → Bool → LSHConstructionParameters)
    (n d : Int) :
    LshParameterSetter.create defaults n d =
      { _n := n, _d := d, _p := defaults n d DistanceFunction.EuclideanSquared true } :=
  rfl

/-- C5 counterexample: constructing the builder with point count 0 (and with
dimension 0) succeeds and returns a fully formed builder instead of failing
with any invalid-dimension error. -/
theorem C5_nonpositive_sizes_accepted :
    (LshParameterSetter.create defaultsProbe 0 1)._n = 0
    ∧ (LshParameterSetter.create defaultsProbe 0 1)._p.distance_function =
        DistanceFunction.EuclideanSquared
    ∧ (LshParameterSetter.create defaultsProbe 3 0)._d = 0
    ∧ (LshParameterSetter.create defaultsProbe 3 0)._p.dimension = 0 :=
  ⟨rfl, rfl, rfl, rfl⟩

/-- C6 (amended): neither operation validates its argument at this layer:
`setNumProbes` installs any probe count, positive or not, directly through
the engine call, and `find_k_nearest_neighbors` forwards any non-negative
`k` to the engine search and returns its shifted result, with no
invalid-argument rejection. -/
theorem C6_arguments_forwarded_without_validation (t : LshNnTable) (n : Int) (q : Nat)
    (k : Int) :
    LshNnTable.setNumProbes t n = { t with num_probes := n }
    ∧ (0 ≤ k → LshNnTable.find_k_nearest_neighbors t q k =
        (t.engine.kNearestOf t.num_probes q k).map (fun index => index + 1)) :=
  ⟨rfl, fun _ => rfl⟩

/-- C6 witness: forwarding at the concrete non-positive probe count -1 and
the non-positive `k = 0`. -/
theorem C6_arguments_forwarded_without_validation_witness :
    LshNnTable.setNumProbes tPair (-1) = { tPair with num_probes := -1 }
    ∧ LshNnTable.find_k_nearest_neighbors tPair 9 0 =
        (tPair.engine.kNearestOf tPair.num_probes 9 0).map (fun index => index + 1) :=
  ⟨(C6_arguments_forwarded_without_validation tPair (-1) 9 0).1,
    (C6_arguments_forwarded_without_validation tPair (-1) 9 0).2 (by decide)⟩

/-- C6 counterexample: the non-positive probe count 0 is accepted and
installed on the engine, and the k-nearest query with the non-positive
`k = 0` reaches the engine and returns its shifted result — no
invalid-argument error exists on either path. -/
theorem C6_nonpositive_arguments_accepted :
    (LshNnTable.setNumProbes tPair 0).num_probes = 0
    ∧ LshNnTable.find_k_nearest_neighbors tPair 9 0 = [1, 3] :=
  ⟨rfl, rfl⟩

/-- Shows the map lookup falls back to its default exactly on labels that key
no entry. -/
theorem get_eq_default_of_not_mem {V : Type} (m : List (String × V)) (label : String)
    (deflt : V) (h : ¬ ∃ v, (label, v) ∈ m) :
    LshParameterSetter.get m label deflt = deflt := by
  have hnone : m.find? (fun kv => kv.1 == label) = none := by
    rw [List.find?_eq_none]
    intro kv hkv
    simp only [beq_iff_eq]
    intro heq
    exact h ⟨kv.2, by rw [← heq]; exact hkv⟩
  unfold LshParameterSetter.get
  rw [hnone]

/-- C8: each of the three label setters is a pure lookup in its closed table:
an unrecognized label sets the explicit Unknown value, a recognized label
sets exactly its mapped enumeration value, and in both cases nothing else in
the builder changes (and the setter, being a total function, never fails). -/
theorem C8_label_setters_closed_lookup (s : LshParameterSetter) (label : String) :
    ((¬ ∃ v, (label, v) ∈ LshParameterSetter.distances) →
        (s.distance label)._p.distance_function = DistanceFunction.Unknown)
    ∧ (∀ v, (label, v) ∈ LshParameterSetter.distances →
        (s.distance label)._p.distance_function = v)
    ∧ (s.distance label)._n = s._n ∧ (s.distance label)._d = s._d
    ∧ (s.distance label)._p =
        { s._p with distance_function := (s.distance label)._p.distance_function }
    ∧ ((¬ ∃ v, (label, v) ∈ LshParameterSetter.families) →
        (s.family label)._p.lsh_family = LSHFamily.Unknown)
    ∧ (∀ v, (label, v) ∈ LshParameterSetter.families →
        (s.family label)._p.lsh_family = v)
    ∧ (s.family label)._n = s._n ∧ (s.family label)._d = s._d
    ∧ (s.family label)._p = { s._p with lsh_family := (s.family label)._p.lsh_family }
    ∧ ((¬ ∃ v, (label, v) ∈ LshParameterSetter.storageTypes) →
        (s.storage label)._p.storage_hash_table = StorageHashTable.Unknown)
    ∧ (∀ v, (label, v) ∈ LshParameterSetter.storageTypes →
        (s.storage label)._p.storage_hash_table = v)
    ∧ (s.storage label)._n = s._n ∧ (s.storage label)._d = s._d
    ∧ (s.storage label)._p =
        { s._p with storage_hash_table := (s.storage label)._p.storage_hash_table } := by
  refine ⟨?_, ?_, rfl, rfl, rfl, ?_, ?_, rfl, rfl, rfl, ?_, ?_, rfl, rfl, rfl⟩
  · intro h
    exact get_eq_default_of_not_mem LshParameterSetter.distances label
      DistanceFunction.Unknown h
  · intro v hv
    simp only [LshParameterSetter.distances, List.mem_cons, List.mem_singleton,
      Prod.mk.injEq, List.not_mem_nil, or_false] at hv
    rcases hv with ⟨h1, h2⟩ | ⟨h1, h2⟩ | ⟨h1, h2⟩ <;> subst h1 <;> subst h2 <;> rfl
  · intro h
    exact get_eq_default_of_not_mem LshParameterSetter.families label LSHFamily.Unknown h
  · intro v hv
    simp only [LshParameterSetter.families, List.mem_cons, List.mem_singleton,
      Prod.mk.injEq, List.not_mem_nil, or_false] at hv
    rcases hv with ⟨h1, h2⟩ | ⟨h1, h2⟩ | ⟨h1, h2⟩ <;> subst h1 <;> subst h2 <;> rfl
  · intro h
    exact get_eq_default_of_not_mem LshParameterSetter.storageTypes label
      StorageHashTable.Unknown h
  · intro v hv
    simp only [LshParameterSetter.storageTypes, List.mem_cons, List.mem_singleton,
      Prod.mk.injEq, List.not_mem_nil, or_false] at hv
    rcases hv with ⟨h1, h2⟩ | ⟨h1, h2⟩ | ⟨h1, h2⟩ | ⟨h1, h2⟩ | ⟨h1, h2⟩ <;> subst h1 <;>
      subst h2 <;> rfl

/-- C8 witness: the unrecognized label "manhattan" sets the Unknown metric
and the recognized label "hyperplane" sets exactly the hyperplane family. -/
theorem C8_label_setters_closed_lookup_witness :
    (sBase.distance "manhattan")._p.distance_function = DistanceFunction.Unknown
    ∧ (sBase.family "hyperplane")._p.lsh_family = LSHFamily.Hyperplane :=
  ⟨(C8_label_setters_closed_lookup sBase "manhattan").1 (by decide),
    (C8_label_setters_closed_lookup sBase "hyperplane").2.2.2.2.2.2.1 LSHFamily.Hyperplane
      (by decide)⟩

/-- C10: for every recognized label of each of the three tables, applying the
corresponding setter and reading the field back through the reverse lookup
of `asList` returns the same label. -/
theorem C10_setter_asList_roundtrip (s : LshParameterSetter) :
    (∀ label v, (label, v) ∈ LshParameterSetter.distances →
        (LshParameterSetter.asList (s.distance label)).distance = label)
    ∧ (∀ label v, (label, v) ∈ LshParameterSetter.families →
        (LshParameterSetter.asList (s.family label)).lshFamily = label)
    ∧ (∀ label v, (label, v) ∈ LshParameterSetter.storageTypes →
        (LshParameterSetter.asList (s.storage label)).storage = label) := by
  refine ⟨?_, ?_, ?_⟩
  · intro label v hv
    simp only [LshParameterSetter.distances, List.mem_cons, List.mem_singleton,
      Prod.mk.injEq, List.not_mem_nil, or_false] at hv
    rcases hv with ⟨h1, h2⟩ | ⟨h1, h2⟩ | ⟨h1, h2⟩ <;> subst h1 <;> rfl
  · intro label v hv
    simp only [LshParameterSetter.families, List.mem_cons, List.mem_singleton,
      Prod.mk.injEq, List.not_mem_nil, or_false] at hv
    rcases hv with ⟨h1, h2⟩ | ⟨h1, h2⟩ | ⟨h1, h2⟩ <;> subst h1 <;> rfl
  · intro label v hv
    simp only [LshParameterSetter.storageTypes, List.mem_cons, List.mem_singleton,
      Prod.mk.injEq, List.not_mem_nil, or_false] at hv
    rcases hv with ⟨h1, h2⟩ | ⟨h1, h2⟩ | ⟨h1, h2⟩ | ⟨h1, h2⟩ | ⟨h1, h2⟩ <;> subst h1 <;> rfl

/-- C10 witness: the storage round trip at the recognized label
"stl_hash_table". -/
theorem C10_setter_asList_roundtrip_witness :
    (LshParameterSetter.asList (sBase.storage "stl_hash_table")).storage =
      "stl_hash_table" :=
  (C10_setter_asList_roundtrip sBase).2.2 "stl_hash_table" StorageHashTable.STLHashTable
    (by decide)
